import Mathlib

/-!
# Verification of the ETLScanBus pipeline

Shallow embedding of the three modules of the repository:

* `socket_server.py` — client registry (`client_queues`, `client_names`,
  `client_connections`, `name_to_addr`), registration with duplicate-identity
  eviction (`handle_client`), broadcast (`notify_clients`) and targeted
  notification (`notify_specific_client`);
* `database_module.py` — the sharded batch-record merge
  (`update_table_with_cotas`) over tables `PIP_TL_PCT_1 .. PIP_TL_PCT_total`;
* `main.py` — payload extraction (`extract_data_from_json`), the file
  processor (`process_file`, `process_file_update`) and the debounced
  submission queue with its in-flight set
  (`FileChangeHandler._queue_file_for_processing`, worker loop).

Python dictionaries are embedded as insertion-ordered association lists,
bounded `queue.Queue` mailboxes as lists with an explicit capacity check,
SQL rows as structures, and the fallible store as an oracle that says which
fetches/writes raise.  Measured values are modelled as rationals: the source
only ever compares them (`min`/`max`), never does arithmetic on them, so the
embedding is exact.
-/

namespace ETLScanBus

/-! ## Association lists (Python `dict` with insertion order) -/

/-- `d.get(k)` / `k in d` on an insertion-ordered dictionary. -/
def alookup {α β : Type} [DecidableEq α] (k : α) : List (α × β) → Option β
  | [] => none
  | (a, b) :: l => if a = k then some b else alookup k l

/-- `d[k] = v`: replace in place if the key is present, else append
(Python dicts keep insertion order). -/
def aupdate {α β : Type} [DecidableEq α] (k : α) (v : β) : List (α × β) → List (α × β)
  | [] => [(k, v)]
  | (a, b) :: l => if a = k then (k, v) :: l else (a, b) :: aupdate k v l

/-! ## Fan-out server model (`socket_server.py`)

Client addresses are `(host, port)` pairs; connection handles are numbered.
A mailbox is a bounded FIFO of messages; a message is the deviation /
correction mapping handed to `json.dumps` (name ↦ value).  The registry state
mirrors the four module-level dictionaries plus the set of connections that
have been `close()`d. -/

abbrev Addr : Type := String × Nat

/-- A deviation/correction payload (the `lra_data` dict). -/
abbrev Msg : Type := List (String × ℚ)

structure ServerState where
  client_queues : List (Addr × List Msg)
  client_names : List (Addr × String)
  client_connections : List (Addr × Nat)
  name_to_addr : List (String × Addr)
  /-- Connection handles on which `close()` has been called. -/
  closed_conns : List Nat
deriving DecidableEq

def ServerState.empty : ServerState := ⟨[], [], [], [], []⟩

/-- Python `str.strip()`: drop leading and trailing whitespace. -/
def pyStrip (s : String) : String :=
  ⟨((s.data.dropWhile Char.isWhitespace).reverse.dropWhile Char.isWhitespace).reverse⟩

/-- `conn.recv(1024).decode().strip() or f"Cliente_{addr[1]}"`
(socket_server.py line 135). -/
def handshake_name (raw : String) (addr : Addr) : String :=
  let s := pyStrip raw
  if s = "" then "Cliente_" ++ toString addr.2 else s

/-- The duplicate-identity check of `handle_client` (socket_server.py lines
139–151): if the name is taken by a *different* live address, that old
connection is closed — but its registry entries are left in place ("A
limpeza dos recursos será feita pela thread do sender quando terminar"). -/
def evict_duplicate (st : ServerState) (addr : Addr) (client_name : String) :
    ServerState :=
  match alookup client_name st.name_to_addr with
  | some old_addr =>
    match alookup old_addr st.client_connections with
    | some old_conn =>
      if old_addr ≠ addr then
        { st with closed_conns := old_conn :: st.closed_conns }
      else st
    | none => st
  | none => st

/-- The registration block of `handle_client` (socket_server.py lines
138–157), run under `lock` with the already-resolved client name: the
duplicate check above, then the four maps are pointed at the new client. -/
def register (st : ServerState) (conn : Nat) (addr : Addr) (client_name : String) :
    ServerState :=
  let st1 := evict_duplicate st addr client_name
  { st1 with
    client_queues := aupdate addr [] st1.client_queues
    client_names := aupdate addr client_name st1.client_names
    client_connections := aupdate addr conn st1.client_connections
    name_to_addr := aupdate client_name addr st1.name_to_addr }

/-- `handle_client`'s handshake followed by registration. -/
def handle_client_register (st : ServerState) (conn : Nat) (addr : Addr)
    (raw : String) : ServerState :=
  register st conn addr (handshake_name raw addr)

/-- `queue.Queue(maxsize=100).put_nowait`: `none` models `queue.Full`. -/
def put_nowait (q : List Msg) (m : Msg) : Option (List Msg) :=
  if 100 ≤ q.length then none else some (q ++ [m])

/-- `put_nowait` into one mailbox, dropping the message if the mailbox is
full (`except queue.Full: ... ignorando notificação`). -/
def broadcast_enqueue (lra_data : Msg) (q : List Msg) : List Msg :=
  (put_nowait q lra_data).getD q

/-- `notify_clients` (socket_server.py lines 26–49): empty data is not sent;
otherwise every registered mailbox gets the message, full mailboxes drop it. -/
def notify_clients (st : ServerState) (lra_data : Msg) : ServerState :=
  if lra_data = [] then st
  else
    { st with
      client_queues := st.client_queues.map
        (fun p => (p.1, broadcast_enqueue lra_data p.2)) }

/-- `notify_specific_client` (socket_server.py lines 51–74): resolve the name
through `name_to_addr`, then enqueue into that address's mailbox; absent
name or absent mailbox is a logged no-op. -/
def notify_specific_client (st : ServerState) (lra_data : Msg)
    (target_client : String) : ServerState :=
  match alookup target_client st.name_to_addr with
  | none => st
  | some addr =>
    match alookup addr st.client_queues with
    | none => st
    | some q =>
      { st with
        client_queues := aupdate addr ((put_nowait q lra_data).getD q) st.client_queues }

/-- Number of registered mailboxes that belong to clients named `name` and
contain message `m` — used to count how many copies a broadcast delivered to
an identity. -/
def mailboxes_with (st : ServerState) (name : String) (m : Msg) : Nat :=
  (st.client_queues.filter
    (fun p => decide (alookup p.1 st.client_names = some name ∧ m ∈ p.2))).length

/-! ## Batch-record merge model (`database_module.py`)

`update_table_with_cotas` scans tables `PIP_TL_PCT_1 .. PIP_TL_PCT_total`
(`total = int(qtd / lote)`) for the first row with `INDEX = index_load AND
medicao < amostragem`, merges the new measurements into it and writes it
back.  The store is modelled per load index: `rows i` is the row with that
`INDEX` in table `PIP_TL_PCT_i` (or `none`), and `fetchFail`/`writeFail`
say which cursor operations raise (any raised exception makes the Python
function return `False` with nothing committed).  A row's `cotas` list
holds the `(cota_x_min, cota_x_max)` column pair for each dimension column
the table has, position `0` being `cota_a`; `none` is SQL `NULL`. -/

structure Row where
  medicao : Int
  cotas : List (Option ℚ × Option ℚ)
  insp : List String
  rem_a : Option String
  rem_b : Option String
  atrib : Option String
  dm3 : String
deriving DecidableEq

/-- One dimension's `{min, max}` update (database_module.py lines 266–273):
`NULL` is read as `0`, and `0` is the "unset" sentinel that the new value
seeds; otherwise running `min`/`max`. -/
def updateCota (medida : ℚ) (c : Option ℚ × Option ℚ) : Option ℚ × Option ℚ :=
  let existing_min := c.1.getD 0
  let existing_max := c.2.getD 0
  (some (if existing_min = 0 then medida else min existing_min medida),
   some (if existing_max = 0 then medida else max existing_max medida))

/-- The `for idx, medida in enumerate(lra_values)` loop (lines 257–273):
stop at index 26 (`cota_a .. cota_z`), update a position only when the
table has that cota column (positions past `cotas.length` have none). -/
def mergeCotasAux : Nat → List (Option ℚ × Option ℚ) → List ℚ → List (Option ℚ × Option ℚ)
  | _, cotas, [] => cotas
  | idx, cotas, medida :: rest =>
    if 26 ≤ idx then cotas
    else
      match cotas with
      | [] => []
      | c :: cs => updateCota medida c :: mergeCotasAux (idx + 1) cs rest

def mergeCotas (cotas : List (Option ℚ × Option ℚ)) (lra_values : List ℚ) :
    List (Option ℚ × Option ℚ) :=
  mergeCotasAux 0 cotas lra_values

/-- The `INSP` field update (lines 287–293): the stored comma-separated
inspector list, as a set; a non-empty operator not yet present is added. -/
def mergeInsp (insp : List String) (operador : String) : List String :=
  if operador ≠ "" ∧ operador ∉ insp then insp ++ [operador] else insp

/-- The full `update_values` applied to the fetched row (lines 249–305):
`medicao` incremented by one, cotas merged, remark fields written only when
the incoming value is non-null (sparse write), inspector appended, and the
`3DM` completion flag set to `"OK"`. -/
def mergeRow (row : Row) (lra_values : List ℚ) (operador : String)
    (rem_a rem_b atrib : Option String) : Row :=
  { medicao := row.medicao + 1
    cotas := mergeCotas row.cotas lra_values
    insp := mergeInsp row.insp operador
    rem_a := match rem_a with | some v => some v | none => row.rem_a
    rem_b := match rem_b with | some v => some v | none => row.rem_b
    atrib := match atrib with | some v => some v | none => row.atrib
    dm3 := "OK" }

/-- The store for one load index: the row each shard table holds for it and
which fetches/writes raise. -/
structure Db where
  rows : Nat → Option Row
  fetchFail : Nat → Bool
  writeFail : Nat → Bool

/-- The `WHERE INDEX = ? AND medicao < ?` filter applied to a shard's row. -/
def eligibleRow (amostragem : Int) : Option Row → Option Row
  | some r => if r.medicao < amostragem then some r else none
  | none => none

/-- The first-pass scan loop over the shard tables (lines 243–312): fetch
each table's filtered row in order; on the first hit, merge and write it,
returning `true`; a raised cursor error aborts the whole call. -/
def scanTables (db : Db) (amostragem : Int) (lra_values : List ℚ)
    (operador : String) (rem_a rem_b atrib : Option String) :
    List Nat → Except String (Bool × (Nat → Option Row))
  | [] => .ok (false, db.rows)
  | i :: rest =>
    if db.fetchFail i then .error "db error"
    else
      match eligibleRow amostragem (db.rows i) with
      | some row =>
        if db.writeFail i then .error "db error"
        else
          .ok (true, fun j =>
            if j = i then some (mergeRow row lra_values operador rem_a rem_b atrib)
            else db.rows j)
      | none => scanTables db amostragem lra_values operador rem_a rem_b atrib rest

/-- `total = int(qtd / lote)`: truncating division of the positive lot
quantity by the batch size, i.e. the floor of the quotient. -/
def shardCount (qtd lote : Nat) : Nat := qtd / lote

/-- Python truthiness of the `qtd`/`lote` values: `None` and `0` are falsy. -/
def pyTruthy (o : Option Nat) : Bool := !(o.getD 0 == 0)

/-- `update_table_with_cotas` (database_module.py lines 193–316).  Returns
the Python result (`True` on a committed merge, `False` on invalid config,
no eligible shard, or any raised error) together with the resulting store. -/
def update_table_with_cotas (db : Db) (amostragem : Int) (lra_values : List ℚ)
    (operador : String) (rem_a rem_b : Option String)
    (qtd lote : Option Nat) (atrib : Option String) : Bool × Db :=
  if !pyTruthy qtd || !pyTruthy lote then (false, db)
  else
    let total := shardCount (qtd.getD 0) (lote.getD 0)
    if total = 0 then (false, db)
    else
      match scanTables db amostragem lra_values operador rem_a rem_b atrib
          (List.range' 1 total) with
      | .ok (b, rows2) => (b, { db with rows := rows2 })
      | .error _ => (false, db)

/-! ## File processor model (`main.py`)

`extract_data_from_json` reads `data["Tube_Inspection"]` and keeps, from the
`DIMENSIONAL` array, only the entries whose `Medida` field holds a number.
The parsed payload is embedded as the fields the extractor touches; a
`Medida` field is an optional JSON value. -/

inductive JVal
  | num (q : ℚ)
  | str (s : String)
  | jnull
deriving DecidableEq

/-- `isinstance(item.get("Medida"), (int, float))`, and the kept value. -/
def medidaNum : Option JVal → Option ℚ
  | some (.num q) => some q
  | _ => none

/-- The `Tube_Inspection` object, reduced to the fields the extractor reads.
`dimensional` is the list of each `DIMENSIONAL` entry's `Medida` field
(`none` when the key is absent or the whole entry something else). -/
structure TubeInspection where
  machine_id : Option String
  operador : Option String
  rem_a : Option String
  rem_b : Option String
  atrib : Option String
  dimensional : List (Option JVal)
deriving DecidableEq

/-- `extract_data_from_json` (main.py lines 121–177) on a successfully
parsed payload: fail (`None` six-tuple) when `machine_id` is falsy or
`DIMENSIONAL` is an empty list, else return the machine id, the *filtered*
numeric measure list, the operator (defaulted), and the remark fields. -/
def extract_data_from_json (t : TubeInspection) :
    Option (String × List ℚ × String × Option String × Option String × Option String) :=
  let machine_id := t.machine_id.getD ""
  let operador := t.operador.getD "Desconhecido"
  if machine_id = "" ∨ t.dimensional = [] then none
  else some (machine_id, t.dimensional.filterMap medidaNum, operador,
             t.rem_a, t.rem_b, t.atrib)

/-- The external lookups `get_index_load` / `get_amostragem` as the File
Processor sees them (both return `None`s on any store error), plus the
shard store. `amostragem` returns `(AMOSTRAGEM, QTD, TAM_LOTE)` in the
order `process_file_update` unpacks. -/
structure Env where
  index_load : String → Option String
  amostragem : String → Option Int × Option Nat × Option Nat
  db : Db

/-- `process_file_update` (main.py lines 229–280): resolve machine → load
index → sampling data, skipping (result `False`) on a miss; then either
schedule the merge asynchronously — `update_table_async` merely submits to
the executor, so the call reports `True` immediately — or run it
synchronously and report its result. -/
def process_file_update (env : Env) (machine_id : String) (dimensional_values : List ℚ)
    (operador : String) (rem_a rem_b atrib : Option String) (use_async : Bool) : Bool :=
  match env.index_load machine_id with
  | none => false
  | some il =>
    match env.amostragem il with
    | (none, _, _) => false
    | (some amostragem, qtd, lote) =>
      if use_async then true
      else
        (update_table_with_cotas env.db amostragem dimensional_values operador
          rem_a rem_b qtd lote atrib).1

/-- What `process_file` hands to the fan-out server. -/
inductive Notification
  | targeted (name : String) (data : Msg)
  | toAll (data : Msg)
  | nothing
deriving DecidableEq

/-- `process_file` (main.py lines 282–325), restricted to its observable
decision: which notification is issued.  `lra_fail` stands for the result
of `extract_lra_fail_data` on the same file.  The merge is fired with
`use_async=True` and its result discarded; the notification branch then
re-tests `machine_id`. -/
def process_file (env : Env) (t : TubeInspection) (lra_fail : Msg) : Notification :=
  match extract_data_from_json t with
  | none => .nothing
  | some (machine_id, dimensional_values, operador, rem_a, rem_b, atrib) =>
    if machine_id ≠ "" ∧ dimensional_values ≠ [] then
      let _merge := process_file_update env machine_id dimensional_values operador
        rem_a rem_b atrib true
      if machine_id ≠ "" then .targeted machine_id lra_fail
      else .toAll lra_fail
    else .nothing

/-! ## Submission queue, worker pool and in-flight set (`main.py`)

`processing_files` is the InFlightSet, `processing_queue` the bounded FIFO
(`MAX_QUEUE_SIZE = 1000`), and `running` the paths a worker has pulled and
is currently processing.  `submit` is
`FileChangeHandler._queue_file_for_processing` (lines 385–420): the
duplicate check and the add happen under `processing_lock`; a full queue
rolls the add back.  `workerFinish` is the `finally` of `process_file`
(lines 321–325), which removes the path whatever the outcome was. -/

def MAX_QUEUE_SIZE : Nat := 1000

structure PipeState where
  processing_files : List String
  processing_queue : List String
  running : List String
deriving DecidableEq

def PipeState.init : PipeState := ⟨[], [], []⟩

/-- `_queue_file_for_processing` (main.py lines 385–420). -/
def submit (st : PipeState) (p : String) : PipeState :=
  if p ∈ st.processing_files then st
  else
    let files1 := p :: st.processing_files
    if MAX_QUEUE_SIZE ≤ st.processing_queue.length then
      { st with processing_files := files1.erase p }
    else
      { st with processing_files := files1, processing_queue := st.processing_queue ++ [p] }

/-- A worker pulls the head of the FIFO queue and starts processing it
(`process_queue_worker`, main.py lines 327–349). -/
def workerStart (st : PipeState) : PipeState :=
  match st.processing_queue with
  | [] => st
  | p :: rest => { st with processing_queue := rest, running := p :: st.running }

/-- The `finally` block of `process_file` (main.py lines 321–325): on
completion — success, failure or exception alike — the path leaves the
in-flight set. -/
def workerFinish (st : PipeState) (p : String) : PipeState :=
  { st with
    running := st.running.erase p
    processing_files := st.processing_files.erase p }

inductive PipeEvent
  | submit (p : String)
  | start
  | finish (p : String) (ok : Bool)
deriving DecidableEq

/-- One pipeline step; a finish event only applies to a path some worker is
actually processing, and its outcome flag does not influence the effect. -/
def pstep (st : PipeState) : PipeEvent → PipeState
  | .submit p => submit st p
  | .start => workerStart st
  | .finish p _ => if p ∈ st.running then workerFinish st p else st

def prun (st : PipeState) : List PipeEvent → PipeState
  | [] => st
  | e :: es => prun (pstep st e) es

/-- The pipeline invariant: the in-flight set holds no duplicates, a path
is queued or running at most once overall, and every queued or running path
is in the in-flight set. -/
def PipeInv (st : PipeState) : Prop :=
  st.processing_files.Nodup ∧
  (st.processing_queue ++ st.running).Nodup ∧
  ∀ p, p ∈ st.processing_queue ++ st.running → p ∈ st.processing_files

/-! ## Concrete instances used by the per-claim theorems and witnesses -/

/-- Registry with client `M` at `("h", 1)` on connection `0`. -/
def c1_st0 : ServerState := register ServerState.empty 0 ("h", 1) "M"

/-- The same name reconnects from `("h", 2)` on connection `1`. -/
def c1_st1 : ServerState := register c1_st0 1 ("h", 2) "M"

def c1_st2 : ServerState := notify_clients c1_st1 [("dobra_1", 2)]

/-- A shard already full at the sample size (`medicao = 5 = amostragem`). -/
def c2_row_full : Row := ⟨5, [(some 1, some 2)], [], none, none, none, "OK"⟩

/-- A shard still open (`medicao = 2 < 5`), cotas unset. -/
def c2_row_open : Row := ⟨2, [(some 0, some 0)], [], none, none, none, ""⟩

/-- Shard 1 full, shard 2 open, shard 3 absent; no store errors. -/
def c2_db : Db :=
  ⟨fun i => if i = 1 then some c2_row_full else if i = 2 then some c2_row_open else none,
   fun _ => false, fun _ => false⟩

/-- Every shard full. -/
def c2_db_full : Db := ⟨fun _ => some c2_row_full, fun _ => false, fun _ => false⟩

/-- The shard of the C3 scenario: `measurementCount = 2`, one dimension
with min/max stored as the unset sentinel `0`. -/
def c3_row : Row := ⟨2, [(some 0, some 0)], [], none, none, none, ""⟩

def c3_db : Db := ⟨fun i => if i = 1 then some c3_row else none,
  fun _ => false, fun _ => false⟩

/-- The store after the first merge of `10.0`. -/
def c3_db1 : Db :=
  (update_table_with_cotas c3_db 5 [10] "Op" none none (some 5) (some 1) none).2

def c4_row : Row := ⟨2, [(some 0, some 0)], [], none, none, none, ""⟩

/-- A store whose every fetch and write raises. -/
def c4_db_err : Db := ⟨fun i => if i = 1 then some c4_row else none,
  fun _ => true, fun _ => true⟩

def c4_env : Env := ⟨fun _ => some "IL", fun _ => (some 5, some 5, some 1), c4_db_err⟩

def c5_env : Env := ⟨fun _ => none, fun _ => (none, none, none),
  ⟨fun _ => none, fun _ => false, fun _ => false⟩⟩

/-- A payload that parses fine but carries no machine identity. -/
def c5_t_noid : TubeInspection := ⟨none, none, none, none, none, [some (.num 1)]⟩

/-- Parsed payload with identity `M5` and one numeric value. -/
def c5_t_ok : TubeInspection := ⟨some "M5", none, none, none, none, [some (.num 3)]⟩

/-- Parsed payload whose dimensional entries are all non-numeric. -/
def c5_t_empty : TubeInspection := ⟨some "M5", none, none, none, none, [some (.str "x")]⟩

/-- The payload of the C9 demonstration: a numeric entry, a non-numeric
one, then another numeric one. -/
def c9_t : TubeInspection :=
  ⟨some "M9", none, none, none, none, [some (.num 5), some (.str "x"), some (.num 7)]⟩

/-- A shard row with three cota columns, all unset. -/
def c9_row : Row :=
  ⟨0, [(some 0, some 0), (some 0, some 0), (some 0, some 0)], [], none, none, none, ""⟩

/-! ## Helper lemmas -/

theorem alookup_aupdate_self {α β : Type} [DecidableEq α] (k : α) (v : β)
    (l : List (α × β)) : alookup k (aupdate k v l) = some v := by
  induction l with
  | nil => simp [aupdate, alookup]
  | cons p l ih =>
    obtain ⟨a, b⟩ := p
    by_cases h : a = k
    · simp [aupdate, alookup, h]
    · simp [aupdate, alookup, h, ih]

theorem alookup_aupdate_of_ne {α β : Type} [DecidableEq α] {k k' : α} (v : β)
    (l : List (α × β)) (h : k' ≠ k) :
    alookup k' (aupdate k v l) = alookup k' l := by
  induction l with
  | nil => simp [aupdate, alookup, Ne.symm h]
  | cons p l ih =>
    obtain ⟨a, b⟩ := p
    by_cases ha : a = k
    · subst ha
      simp [aupdate, alookup, Ne.symm h]
    · simp [aupdate, alookup, ha, ih]

/-- Looking a key up after mapping a function over all values. -/
theorem alookup_map_snd {α β γ : Type} [DecidableEq α] (k : α)
    (f : β → γ) (l : List (α × β)) :
    alookup k (l.map (fun p => (p.1, f p.2))) = (alookup k l).map f := by
  induction l with
  | nil => simp [alookup]
  | cons p l ih =>
    obtain ⟨a, b⟩ := p
    by_cases h : a = k
    · simp [alookup, h]
    · simp [alookup, h, ih]

/-- Eviction only touches `closed_conns`: all four registry maps survive. -/
theorem evict_duplicate_maps (st : ServerState) (addr : Addr) (nm : String) :
    (evict_duplicate st addr nm).client_queues = st.client_queues ∧
    (evict_duplicate st addr nm).client_names = st.client_names ∧
    (evict_duplicate st addr nm).client_connections = st.client_connections ∧
    (evict_duplicate st addr nm).name_to_addr = st.name_to_addr := by
  rcases h1 : alookup nm st.name_to_addr with _ | old_addr
  · simp [evict_duplicate, h1]
  · rcases h2 : alookup old_addr st.client_connections with _ | old_conn
    · simp [evict_duplicate, h1, h2]
    · by_cases h : old_addr ≠ addr <;> simp [evict_duplicate, h1, h2, h]

/-- Whatever the eviction branch did, registration overwrites the mailbox
map at the new address. -/
theorem register_client_queues (st : ServerState) (conn : Nat) (addr : Addr)
    (nm : String) :
    (register st conn addr nm).client_queues = aupdate addr [] st.client_queues := by
  show aupdate addr [] (evict_duplicate st addr nm).client_queues = _
  rw [(evict_duplicate_maps st addr nm).1]

theorem register_client_names (st : ServerState) (conn : Nat) (addr : Addr)
    (nm : String) :
    (register st conn addr nm).client_names = aupdate addr nm st.client_names := by
  show aupdate addr nm (evict_duplicate st addr nm).client_names = _
  rw [(evict_duplicate_maps st addr nm).2.1]

theorem register_client_connections (st : ServerState) (conn : Nat) (addr : Addr)
    (nm : String) :
    (register st conn addr nm).client_connections =
      aupdate addr conn st.client_connections := by
  show aupdate addr conn (evict_duplicate st addr nm).client_connections = _
  rw [(evict_duplicate_maps st addr nm).2.2.1]

theorem register_name_to_addr (st : ServerState) (conn : Nat) (addr : Addr)
    (nm : String) :
    (register st conn addr nm).name_to_addr = aupdate nm addr st.name_to_addr := by
  show aupdate nm addr (evict_duplicate st addr nm).name_to_addr = _
  rw [(evict_duplicate_maps st addr nm).2.2.2]

/-- A broadcast appends the message to a registered mailbox that has room. -/
theorem notify_clients_alookup (st : ServerState) (d : Msg) (addr : Addr)
    (q : List Msg) (hd : d ≠ []) (hq : alookup addr st.client_queues = some q)
    (hlen : q.length < 100) :
    alookup addr (notify_clients st d).client_queues = some (q ++ [d]) := by
  unfold notify_clients
  rw [if_neg hd]
  show alookup addr (st.client_queues.map (fun p => (p.1, broadcast_enqueue d p.2)))
    = some (q ++ [d])
  rw [alookup_map_snd addr (broadcast_enqueue d), hq]
  simp [broadcast_enqueue, put_nowait, Nat.not_le_of_lt hlen]

/-! ## C7 -/

/-- C7: a `submit` call made while the submission queue is at capacity does
not enqueue the path and leaves the whole state — in particular the
InFlightSet — exactly as it was. -/
theorem C7_submit_full_queue_is_noop (st : PipeState) (p : String)
    (h : MAX_QUEUE_SIZE ≤ st.processing_queue.length) :
    submit st p = st := by
  unfold submit
  by_cases hp : p ∈ st.processing_files
  · simp [hp]
  · simp only [hp, if_false, if_pos h, ite_false, ite_true, if_true]
    rw [List.erase_cons_head]

/-- C7 witness: a concrete state with a full queue. -/
theorem C7_submit_full_queue_is_noop_witness :
    submit ⟨[], List.replicate 1000 "x", []⟩ "p" = ⟨[], List.replicate 1000 "x", []⟩ :=
  C7_submit_full_queue_is_noop _ _ (by rw [List.length_replicate]; decide)

/-! ## C10 -/

/-- C10: a client whose handshake delivers an empty or whitespace-only
identity string is not rejected: it is registered under the synthesized
identity `Cliente_<port>`, and from then on behaves as a normally
registered client — broadcasts reach its mailbox and it can be targeted
under that synthesized name. -/
theorem C10_whitespace_handshake_synthesized_identity (st : ServerState)
    (conn : Nat) (addr : Addr) (raw : String) (d : Msg)
    (hraw : pyStrip raw = "") (hd : d ≠ []) :
    handshake_name raw addr = "Cliente_" ++ toString addr.2 ∧
    alookup addr (handle_client_register st conn addr raw).client_names =
      some ("Cliente_" ++ toString addr.2) ∧
    alookup ("Cliente_" ++ toString addr.2)
      (handle_client_register st conn addr raw).name_to_addr = some addr ∧
    alookup addr (handle_client_register st conn addr raw).client_connections =
      some conn ∧
    alookup addr (notify_clients (handle_client_register st conn addr raw) d).client_queues =
      some [d] ∧
    alookup addr (notify_specific_client (handle_client_register st conn addr raw) d
      ("Cliente_" ++ toString addr.2)).client_queues = some [d] := by
  have hname : handshake_name raw addr = "Cliente_" ++ toString addr.2 := by
    simp [handshake_name, hraw]
  unfold handle_client_register
  rw [hname]
  have hq : alookup addr (register st conn addr ("Cliente_" ++ toString addr.2)).client_queues
      = some [] := by
    rw [register_client_queues, alookup_aupdate_self]
  refine ⟨rfl, ?_, ?_, ?_, ?_, ?_⟩
  · rw [register_client_names, alookup_aupdate_self]
  · rw [register_name_to_addr, alookup_aupdate_self]
  · rw [register_client_connections, alookup_aupdate_self]
  · have := notify_clients_alookup (register st conn addr ("Cliente_" ++ toString addr.2))
      d addr [] hd hq (by simp)
    simpa using this
  · unfold notify_specific_client
    simp only [register_name_to_addr, alookup_aupdate_self, hq]
    simp [put_nowait]

/-- C10 witness: a whitespace handshake from port 7 yields `Cliente_7`. -/
theorem C10_whitespace_handshake_synthesized_identity_witness :
    handshake_name " " ("1.2.3.4", 7) = "Cliente_" ++ toString (("1.2.3.4", 7) : Addr).2 ∧
    alookup (("1.2.3.4", 7) : Addr)
      (handle_client_register ServerState.empty 0 ("1.2.3.4", 7) " ").client_names =
      some ("Cliente_" ++ toString (("1.2.3.4", 7) : Addr).2) ∧
    alookup ("Cliente_" ++ toString (("1.2.3.4", 7) : Addr).2)
      (handle_client_register ServerState.empty 0 ("1.2.3.4", 7) " ").name_to_addr =
      some ("1.2.3.4", 7) ∧
    alookup (("1.2.3.4", 7) : Addr)
      (handle_client_register ServerState.empty 0 ("1.2.3.4", 7) " ").client_connections =
      some 0 ∧
    alookup (("1.2.3.4", 7) : Addr)
      (notify_clients (handle_client_register ServerState.empty 0 ("1.2.3.4", 7) " ")
        [("giro_1", 2)]).client_queues = some [[("giro_1", 2)]] ∧
    alookup (("1.2.3.4", 7) : Addr)
      (notify_specific_client (handle_client_register ServerState.empty 0 ("1.2.3.4", 7) " ")
        [("giro_1", 2)] ("Cliente_" ++ toString (("1.2.3.4", 7) : Addr).2)).client_queues =
      some [[("giro_1", 2)]] :=
  C10_whitespace_handshake_synthesized_identity ServerState.empty 0 ("1.2.3.4", 7) " "
    [("giro_1", 2)] (by decide) (by decide)

/-! ## C1

The claim says eviction removes the prior registration's entries (name,
mailbox, connection handle) *before* the new registration is installed, so
that afterwards the evicted mailbox is gone and a broadcast enqueues to
exactly one mailbox for that identity.  The code closes the old connection
but defers all map cleanup to the evicted client's sender thread, so
immediately after registration the old mailbox is still present and a
broadcast reaches *two* mailboxes for the identity. -/

/-- C1 counterexample: after the duplicate registration of identity `M`,
the evicted client's mailbox has *not* been removed from the registry, and
a broadcast does *not* enqueue to exactly one mailbox for that identity
(it reaches two). -/
theorem C1_counterexample :
    ¬ (alookup (("h", 1) : Addr) c1_st1.client_queues = none ∧
       mailboxes_with c1_st2 "M" [("dobra_1", 2)] = 1) := by
  decide

/-- C1 (amended): registering a connection under an already-taken identity
closes the prior registration's connection, but its registry entries
(name, mailbox, connection handle) are left in place — their removal is
deferred to the evicted client's sender thread — and only the
name-to-address map is repointed; a broadcast issued right after
registration therefore enqueues into both the evicted mailbox and the new
one. -/
theorem C1_eviction_closes_but_defers_removal (st : ServerState) (name : String)
    (old_addr new_addr : Addr) (old_conn new_conn : Nat) (q : List Msg) (d : Msg)
    (hname : alookup name st.name_to_addr = some old_addr)
    (hconn : alookup old_addr st.client_connections = some old_conn)
    (hne : old_addr ≠ new_addr)
    (hq : alookup old_addr st.client_queues = some q)
    (hqlen : q.length < 100) (hd : d ≠ []) :
    old_conn ∈ (register st new_conn new_addr name).closed_conns ∧
    alookup old_addr (register st new_conn new_addr name).client_queues = some q ∧
    alookup old_addr (register st new_conn new_addr name).client_connections =
      some old_conn ∧
    alookup name (register st new_conn new_addr name).name_to_addr = some new_addr ∧
    alookup old_addr
      (notify_clients (register st new_conn new_addr name) d).client_queues =
      some (q ++ [d]) ∧
    alookup new_addr
      (notify_clients (register st new_conn new_addr name) d).client_queues =
      some [d] := by
  have hclosed : (evict_duplicate st new_addr name).closed_conns =
      old_conn :: st.closed_conns := by
    simp [evict_duplicate, hname, hconn, hne]
  have hregq : alookup old_addr (register st new_conn new_addr name).client_queues
      = some q := by
    rw [register_client_queues, alookup_aupdate_of_ne _ _ hne, hq]
  have hregq2 : alookup new_addr (register st new_conn new_addr name).client_queues
      = some [] := by
    rw [register_client_queues, alookup_aupdate_self]
  refine ⟨?_, hregq, ?_, ?_, ?_, ?_⟩
  · show old_conn ∈ (evict_duplicate st new_addr name).closed_conns
    rw [hclosed]
    exact List.mem_cons_self _ _
  · rw [register_client_connections, alookup_aupdate_of_ne _ _ hne, hconn]
  · rw [register_name_to_addr, alookup_aupdate_self]
  · exact notify_clients_alookup _ d old_addr q hd hregq hqlen
  · have := notify_clients_alookup _ d new_addr [] hd hregq2 (by simp)
    simpa using this

/-- C1 witness: the amended statement at the concrete two-client registry. -/
theorem C1_eviction_closes_but_defers_removal_witness :
    0 ∈ c1_st1.closed_conns ∧
    alookup (("h", 1) : Addr) c1_st1.client_queues = some [] ∧
    alookup (("h", 1) : Addr) c1_st1.client_connections = some 0 ∧
    alookup "M" c1_st1.name_to_addr = some ("h", 2) ∧
    alookup (("h", 1) : Addr) (notify_clients c1_st1 [("dobra_1", 2)]).client_queues =
      some ([] ++ [[("dobra_1", 2)]]) ∧
    alookup (("h", 2) : Addr) (notify_clients c1_st1 [("dobra_1", 2)]).client_queues =
      some [[("dobra_1", 2)]] :=
  C1_eviction_closes_but_defers_removal c1_st0 "M" ("h", 1) ("h", 2) 0 1 []
    [("dobra_1", 2)] (by decide) (by decide) (by decide) (by decide) (by decide)
    (by decide)

/-! ## Scan lemmas for the merge -/

/-- A scan over tables that all fetch cleanly and have no eligible row
reports a non-match and leaves every row as it was. -/
theorem scanTables_all_miss (db : Db) (am : Int) (lra : List ℚ) (op : String)
    (ra rb atr : Option String) (L : List Nat)
    (h : ∀ i ∈ L, db.fetchFail i = false ∧ eligibleRow am (db.rows i) = none) :
    scanTables db am lra op ra rb atr L = .ok (false, db.rows) := by
  induction L with
  | nil => rfl
  | cons i rest ih =>
    have hi := h i (by simp)
    have hrest := ih (fun j hj => h j (by simp [hj]))
    simp [scanTables, hi.1, hi.2, hrest]

/-- A scan whose prefix misses cleanly and whose next table holds an
eligible row stops there: it writes the merged row to that table only, and
never looks at the tables after it. -/
theorem scanTables_first_hit (db : Db) (am : Int) (lra : List ℚ) (op : String)
    (ra rb atr : Option String) (L1 : List Nat) (i : Nat) (L2 : List Nat) (row : Row)
    (hmiss : ∀ j ∈ L1, db.fetchFail j = false ∧ eligibleRow am (db.rows j) = none)
    (hfetch : db.fetchFail i = false)
    (hrow : eligibleRow am (db.rows i) = some row)
    (hwrite : db.writeFail i = false) :
    scanTables db am lra op ra rb atr (L1 ++ i :: L2) =
      .ok (true, fun j => if j = i then some (mergeRow row lra op ra rb atr)
        else db.rows j) := by
  induction L1 with
  | nil => simp [scanTables, hfetch, hrow, hwrite]
  | cons a L1 ih =>
    have ha := hmiss a (by simp)
    have hrest := ih (fun j hj => hmiss j (by simp [hj]))
    simp [scanTables, ha.1, ha.2, hrest]

/-- `[1..N]` split at a member `i`: the part strictly before, `i`, the rest. -/
theorem range'_split (i N : Nat) (h1 : 1 ≤ i) (h2 : i ≤ N) :
    List.range' 1 N = List.range' 1 (i - 1) ++ i :: List.range' (i + 1) (N - i) := by
  have : List.range' 1 (i - 1) ++ List.range' (1 + 1 * (i - 1)) (N - i + 1) =
      List.range' 1 ((N - i + 1) + (i - 1)) := List.range'_append 1 (i - 1) (N - i + 1) 1
  have hgoal := this
  rw [show 1 + 1 * (i - 1) = i by omega, show (N - i + 1) + (i - 1) = N by omega,
    List.range'_succ] at hgoal
  rw [← hgoal, show i + 1 = i + 1 * 1 by omega]

/-! ## C2 -/

/-- C2: with a valid sampling config, the merge scans shards `1..N`
(`N = shardCount qtd lote`) in ascending order.  First part: if `i` is the
first shard in range whose fetch succeeds with a record passing
`medicao < amostragem`, the merge returns `true` and rewrites exactly that
shard's row (nothing is assumed about shards after `i`: the scan stops).
Second part: if every shard in range fetches cleanly and none is eligible,
the merge reports a non-match (`false`, not an error) and the store is
completely untouched. -/
theorem C2_first_fit_shard_scan (db : Db) (am : Int) (lra : List ℚ) (op : String)
    (ra rb atr : Option String) (q l : Nat) (hq : q ≠ 0) (hl : l ≠ 0) :
    (∀ i row, 1 ≤ i → i ≤ shardCount q l →
      (∀ j, 1 ≤ j → j < i → db.fetchFail j = false ∧ eligibleRow am (db.rows j) = none) →
      db.fetchFail i = false → eligibleRow am (db.rows i) = some row →
      db.writeFail i = false →
      update_table_with_cotas db am lra op ra rb (some q) (some l) atr =
        (true, { db with rows := fun j =>
          if j = i then some (mergeRow row lra op ra rb atr) else db.rows j })) ∧
    ((∀ i, 1 ≤ i → i ≤ shardCount q l →
        db.fetchFail i = false ∧ eligibleRow am (db.rows i) = none) →
      update_table_with_cotas db am lra op ra rb (some q) (some l) atr = (false, db)) := by
  have htr : (!pyTruthy (some q) || !pyTruthy (some l)) = false := by
    simp [pyTruthy, hq, hl]
  constructor
  · intro i row hi1 hi2 hmiss hfetch hrow hwrite
    have hN : shardCount q l ≠ 0 := by omega
    have hsplit := range'_split i (shardCount q l) hi1 hi2
    have hscan := scanTables_first_hit db am lra op ra rb atr
      (List.range' 1 (i - 1)) i (List.range' (i + 1) (shardCount q l - i)) row
      (fun j hj => by
        rw [List.mem_range'_1] at hj
        exact hmiss j hj.1 (by omega))
      hfetch hrow hwrite
    rw [update_table_with_cotas, htr]
    simp only [Bool.false_eq_true, if_false, Option.getD_some, hN, ite_false]
    rw [hsplit, hscan]
  · intro hmiss
    rw [update_table_with_cotas, htr]
    simp only [Bool.false_eq_true, if_false, Option.getD_some]
    by_cases hN : shardCount q l = 0
    · simp [hN]
    · have hscan := scanTables_all_miss db am lra op ra rb atr
        (List.range' 1 (shardCount q l))
        (fun j hj => by
          rw [List.mem_range'_1] at hj
          exact hmiss j hj.1 (by omega))
      simp only [hN, ite_false]
      rw [hscan]

/-- C2 witness: with shards `1..3` (`qtd = 3`, `lote = 1`), shard 1 full and
shard 2 open, the merge writes shard 2 only; with all shards full it
reports a non-match and leaves the store untouched. -/
theorem C2_first_fit_shard_scan_witness :
    update_table_with_cotas c2_db 5 [10] "Op" none none (some 3) (some 1) none =
      (true, { c2_db with rows := (fun j =>
        if j = 2 then some (mergeRow c2_row_open [10] "Op" none none none)
        else c2_db.rows j) }) ∧
    update_table_with_cotas c2_db_full 5 [10] "Op" none none (some 3) (some 1) none =
      (false, c2_db_full) :=
  ⟨(C2_first_fit_shard_scan c2_db 5 [10] "Op" none none none 3 1 (by decide)
      (by decide)).1 2 c2_row_open (by decide) (by decide)
      (fun j hj1 hj2 => by
        have hj : j = 1 := by omega
        subst hj
        exact ⟨rfl, by decide⟩)
      rfl (by decide) rfl,
   (C2_first_fit_shard_scan c2_db_full 5 [10] "Op" none none none 3 1 (by decide)
      (by decide)).2 (fun i hi1 hi2 =>
        ⟨rfl, show eligibleRow 5 (some c2_row_full) = none from by decide⟩)⟩

/-! ## C8 -/

/-- C8: the merge computes the shard count as `floor(lotQty / batchSize)` —
`shardCount` is the Nat floor quotient, characterized by
`shardCount * l ≤ q < (shardCount + 1) * l` — and a zero or missing
`lotQty`/`batchSize` makes the merge fail immediately: it returns `false`
and touches no shard, whatever the store holds; moreover the scan never
consults a shard index beyond the computed count (last conjunct: a store
whose first `shardCount` shards miss cleanly yields a non-match even though
nothing at all is assumed about higher indices). -/
theorem C8_shard_count_floor_and_config_guard :
    (∀ (db : Db) (am : Int) (lra : List ℚ) (op : String) (ra rb atr : Option String)
        (qtd lote : Option Nat),
      qtd = none ∨ qtd = some 0 ∨ lote = none ∨ lote = some 0 →
      update_table_with_cotas db am lra op ra rb qtd lote atr = (false, db)) ∧
    (∀ q l : Nat, l ≠ 0 →
      shardCount q l * l ≤ q ∧ q < (shardCount q l + 1) * l) ∧
    (∀ (db : Db) (am : Int) (lra : List ℚ) (op : String) (ra rb atr : Option String)
        (q l : Nat), q ≠ 0 → l ≠ 0 →
      (∀ i, 1 ≤ i → i ≤ shardCount q l →
        db.fetchFail i = false ∧ eligibleRow am (db.rows i) = none) →
      update_table_with_cotas db am lra op ra rb (some q) (some l) atr = (false, db)) := by
  refine ⟨?_, ?_, ?_⟩
  · intro db am lra op ra rb atr qtd lote h
    rcases h with h | h | h | h <;> subst h <;>
      simp [update_table_with_cotas, pyTruthy]
  · intro q l hl
    refine ⟨Nat.div_mul_le_self q l, ?_⟩
    exact (Nat.div_lt_iff_lt_mul (Nat.pos_of_ne_zero hl)).1 (Nat.lt_succ_self _)
  · intro db am lra op ra rb atr q l hq hl hmiss
    have htr : (!pyTruthy (some q) || !pyTruthy (some l)) = false := by
      simp [pyTruthy, hq, hl]
    rw [update_table_with_cotas, htr]
    simp only [Bool.false_eq_true, if_false, Option.getD_some]
    by_cases hN : shardCount q l = 0
    · simp [hN]
    · have hscan := scanTables_all_miss db am lra op ra rb atr
        (List.range' 1 (shardCount q l))
        (fun j hj => by
          rw [List.mem_range'_1] at hj
          exact hmiss j hj.1 (by omega))
      simp only [hN, ite_false]
      rw [hscan]

/-- C8 witness: `shardCount 7 2 = 3` (floor), a missing `qtd` aborts the
merge on an all-failing store, and with `qtd = 3`, `lote = 1` the clean
all-miss store yields a non-match. -/
theorem C8_shard_count_floor_and_config_guard_witness :
    update_table_with_cotas c2_db_full 5 [10] "Op" none none none (some 1) none =
      (false, c2_db_full) ∧
    (shardCount 7 2 * 2 ≤ 7 ∧ 7 < (shardCount 7 2 + 1) * 2) ∧
    update_table_with_cotas c2_db_full 5 [10] "Op" none none (some 3) (some 1) none =
      (false, c2_db_full) :=
  ⟨C8_shard_count_floor_and_config_guard.1 c2_db_full 5 [10] "Op" none none none
      none (some 1) (Or.inl rfl),
   C8_shard_count_floor_and_config_guard.2.1 7 2 (by decide),
   C8_shard_count_floor_and_config_guard.2.2 c2_db_full 5 [10] "Op" none none none
      3 1 (by decide) (by decide) (fun i hi1 hi2 =>
        ⟨rfl, show eligibleRow 5 (some c2_row_full) = none from by decide⟩)⟩

/-! ## C3 -/

/-- Position `i` of the cota-merge loop, while both the measure list and the
cota columns reach it and the running index stays below 26. -/
theorem mergeCotasAux_get?_lt (vs : List ℚ) :
    ∀ (cs : List (Option ℚ × Option ℚ)) (idx i : Nat) (v : ℚ)
      (c : Option ℚ × Option ℚ), idx + i < 26 →
    vs.get? i = some v → cs.get? i = some c →
    (mergeCotasAux idx cs vs).get? i = some (updateCota v c) := by
  induction vs with
  | nil =>
    intro cs idx i v c h26 hv hc
    simp at hv
  | cons v0 vs ih =>
    intro cs idx i v c h26 hv hc
    have hidx : ¬ 26 ≤ idx := by omega
    cases cs with
    | nil => simp at hc
    | cons c0 cs =>
      cases i with
      | zero =>
        simp at hv hc
        subst hv
        subst hc
        simp [mergeCotasAux, hidx]
      | succ i =>
        simp only [List.get?_cons_succ] at hv hc
        simp only [mergeCotasAux, hidx, if_false, List.get?_cons_succ]
        exact ih cs (idx + 1) i v c (by omega) hv hc

/-- The cota-merge loop leaves positions at running index 26 and beyond
untouched (the `if idx >= 26: break`). -/
theorem mergeCotasAux_get?_ge (vs : List ℚ) :
    ∀ (cs : List (Option ℚ × Option ℚ)) (idx i : Nat), 26 ≤ idx + i →
    (mergeCotasAux idx cs vs).get? i = cs.get? i := by
  induction vs with
  | nil => intro cs idx i h; simp [mergeCotasAux]
  | cons v0 vs ih =>
    intro cs idx i h
    cases cs with
    | nil => simp [mergeCotasAux]
    | cons c0 cs =>
      by_cases hidx : 26 ≤ idx
      · simp [mergeCotasAux, hidx]
      · cases i with
        | zero => omega
        | succ i =>
          simp only [mergeCotasAux, hidx, if_false, List.get?_cons_succ]
          exact ih cs (idx + 1) i (by omega)

/-- C3: a merge onto a target shard increments `measurementCount` by
exactly one; at each supplied position below the 26-dimension cap, a stored
`min`/`max` equal to the unset sentinel `0` (with `NULL` read as `0`) is
seeded by the new value and otherwise becomes `min`/`max` of old and new;
positions at the cap and beyond are untouched.  Concretely, from
`{measurementCount = 2, min = 0, max = 0}` merging `10.0` (sample size 5)
gives `{measurementCount = 3, min = 10, max = 10}`, and a subsequent merge
of `7.0` gives `{min = 7, max = 10}`. -/
theorem C3_merge_increments_and_min_max :
    (∀ (row : Row) (lra : List ℚ) (op : String) (ra rb atr : Option String),
      (mergeRow row lra op ra rb atr).medicao = row.medicao + 1) ∧
    (∀ (row : Row) (lra : List ℚ) (op : String) (ra rb atr : Option String)
        (i : Nat) (v : ℚ) (c : Option ℚ × Option ℚ), i < 26 →
      lra.get? i = some v → row.cotas.get? i = some c →
      (mergeRow row lra op ra rb atr).cotas.get? i =
        some (some (if c.1.getD 0 = 0 then v else min (c.1.getD 0) v),
              some (if c.2.getD 0 = 0 then v else max (c.2.getD 0) v))) ∧
    (∀ (row : Row) (lra : List ℚ) (op : String) (ra rb atr : Option String)
        (i : Nat), 26 ≤ i →
      (mergeRow row lra op ra rb atr).cotas.get? i = row.cotas.get? i) ∧
    ((update_table_with_cotas c3_db 5 [10] "Op" none none (some 5) (some 1) none).2.rows 1 =
        some ⟨3, [(some 10, some 10)], ["Op"], none, none, none, "OK"⟩ ∧
      (update_table_with_cotas c3_db1 5 [7] "Op" none none (some 5) (some 1) none).2.rows 1 =
        some ⟨4, [(some 7, some 10)], ["Op"], none, none, none, "OK"⟩) := by
  refine ⟨fun _ _ _ _ _ _ => rfl, ?_, ?_, by decide, by decide⟩
  · intro row lra op ra rb atr i v c h26 hv hc
    show (mergeCotasAux 0 row.cotas lra).get? i = _
    rw [mergeCotasAux_get?_lt lra row.cotas 0 i v c (by omega) hv hc]
    simp [updateCota]
  · intro row lra op ra rb atr i h26
    exact mergeCotasAux_get?_ge lra row.cotas 0 i (by omega)

/-- C3 witness: the general parts applied at the concrete scenario — the
merged shard after `10.0` seeds min and max at dimension `a`. -/
theorem C3_merge_increments_and_min_max_witness :
    (mergeRow c3_row [10] "Op" none none none).medicao = c3_row.medicao + 1 ∧
    (mergeRow c3_row [10] "Op" none none none).cotas.get? 0 =
      some (some (if ((some (0:ℚ), some (0:ℚ)) : Option ℚ × Option ℚ).1.getD 0 = 0 then 10
              else min (((some (0:ℚ), some (0:ℚ)) : Option ℚ × Option ℚ).1.getD 0) 10),
            some (if ((some (0:ℚ), some (0:ℚ)) : Option ℚ × Option ℚ).2.getD 0 = 0 then 10
              else max (((some (0:ℚ), some (0:ℚ)) : Option ℚ × Option ℚ).2.getD 0) 10)) ∧
    (mergeRow c3_row [10] "Op" none none none).cotas.get? 26 = c3_row.cotas.get? 26 :=
  ⟨C3_merge_increments_and_min_max.1 c3_row [10] "Op" none none none,
   C3_merge_increments_and_min_max.2.1 c3_row [10] "Op" none none none 0 10
     (some 0, some 0) (by decide) rfl rfl,
   C3_merge_increments_and_min_max.2.2.1 c3_row [10] "Op" none none none 26
     (by decide)⟩

/-! ## C4

The claim says a Store Adapter fetch/write error is surfaced to the File
Processor as a failure result.  That is true only of the synchronous path;
`process_file` invokes the merge with `use_async=True`
(`update_table_async`), which submits the work to the executor and reports
`True` immediately — a store error in the background merge is logged by
`update_table_with_cotas` and never reaches the caller. -/

/-- C4 counterexample: on the asynchronous path the File Processor actually
uses, a merge against a store whose every fetch raises still reports
success (`True`), not the failure the claim requires. -/
theorem C4_counterexample :
    ¬ (process_file_update c4_env "M1" [10] "Op" none none none true = false) := by
  decide

/-- C4 (amended): a Store Adapter fetch/write error during the shard scan
makes `update_table_with_cotas` return failure with the store unchanged,
and a *synchronous* `process_file_update` therefore reports failure; but on
the asynchronous path (the one `process_file` uses) the call reports
success immediately, regardless of the store outcome. -/
theorem C4_store_error_sync_fails_async_hides (env : Env)
    (machine_id il : String) (am : Int) (lra : List ℚ) (op : String)
    (ra rb atr : Option String) (qtd lote : Option Nat) (msg : String)
    (hil : env.index_load machine_id = some il)
    (ham : env.amostragem il = (some am, qtd, lote))
    (herr : scanTables env.db am lra op ra rb atr
      (List.range' 1 (shardCount (qtd.getD 0) (lote.getD 0))) = .error msg) :
    update_table_with_cotas env.db am lra op ra rb qtd lote atr = (false, env.db) ∧
    process_file_update env machine_id lra op ra rb atr false = false ∧
    process_file_update env machine_id lra op ra rb atr true = true := by
  have hupd : update_table_with_cotas env.db am lra op ra rb qtd lote atr =
      (false, env.db) := by
    rw [update_table_with_cotas]
    by_cases h1 : (!pyTruthy qtd || !pyTruthy lote) = true
    · rw [if_pos h1]
    · rw [if_neg h1]
      by_cases h2 : shardCount (qtd.getD 0) (lote.getD 0) = 0
      · rw [if_pos h2]
      · rw [if_neg h2, herr]
  refine ⟨hupd, ?_, ?_⟩
  · simp [process_file_update, hil, ham, hupd]
  · simp [process_file_update, hil, ham]

/-- C4 witness: the amended statement at the all-raising store. -/
theorem C4_store_error_sync_fails_async_hides_witness :
    update_table_with_cotas c4_env.db 5 [10] "Op" none none (some 5) (some 1) none =
      (false, c4_env.db) ∧
    process_file_update c4_env "M1" [10] "Op" none none none false = false ∧
    process_file_update c4_env "M1" [10] "Op" none none none true = true :=
  C4_store_error_sync_fails_async_hides c4_env "M1" "IL" 5 [10] "Op" none none none
    (some 5) (some 1) "db error" rfl rfl rfl

/-! ## C5

The claim says parsed deviation entries are always handed to the fan-out
server: targeted when a machine identity is present, broadcast otherwise.
In the code the notification only happens inside
`if machine_id and dimensional_values:`, whose guard already requires the
identity — a successfully parsed payload without one (or with no numeric
dimensional value) produces *no* notification, and the broadcast branch is
unreachable. -/

/-- C5 counterexample: for the identity-less payload the claim demands a
broadcast of the deviation data to all registered clients; the code issues
no notification at all. -/
theorem C5_counterexample :
    ¬ (process_file c5_env c5_t_noid [("dobra_1", 2)] =
        Notification.toAll [("dobra_1", 2)]) := by
  decide

/-- C5 (amended): when the parsed payload has a machine identity and at
least one numeric dimensional value, the deviation data is handed to the
fan-out server as a notification targeted at that identity — whatever the
merge outcome (the store environment is universally quantified).  A
successful parse always carries an identity, so the broadcast fallback is
unreachable; and with no numeric dimensional values, or a failed parse, no
notification is issued at all. -/
theorem C5_notifications_always_targeted :
    (∀ (env : Env) (t : TubeInspection) (d : Msg) (mid : String) (vals : List ℚ)
        (op : String) (ra rb atr : Option String),
      extract_data_from_json t = some (mid, vals, op, ra, rb, atr) → vals ≠ [] →
      process_file env t d = .targeted mid d) ∧
    (∀ (t : TubeInspection) (mid : String) (vals : List ℚ) (op : String)
        (ra rb atr : Option String),
      extract_data_from_json t = some (mid, vals, op, ra, rb, atr) → mid ≠ "") ∧
    (∀ (env : Env) (t : TubeInspection) (d : Msg) (mid : String) (op : String)
        (ra rb atr : Option String),
      extract_data_from_json t = some (mid, [], op, ra, rb, atr) →
      process_file env t d = .nothing) ∧
    (∀ (env : Env) (t : TubeInspection) (d : Msg),
      extract_data_from_json t = none → process_file env t d = .nothing) := by
  have hmid : ∀ (t : TubeInspection) (mid : String) (vals : List ℚ) (op : String)
      (ra rb atr : Option String),
      extract_data_from_json t = some (mid, vals, op, ra, rb, atr) → mid ≠ "" := by
    intro t mid vals op ra rb atr h
    unfold extract_data_from_json at h
    by_cases hc : t.machine_id.getD "" = "" ∨ t.dimensional = []
    · rw [if_pos hc] at h
      exact absurd h (by simp)
    · rw [if_neg hc] at h
      simp only [Option.some.injEq, Prod.mk.injEq] at h
      push_neg at hc
      intro hmideq
      exact hc.1 (by rw [h.1, hmideq])
  refine ⟨?_, hmid, ?_, ?_⟩
  · intro env t d mid vals op ra rb atr hex hvals
    have h1 := hmid t mid vals op ra rb atr hex
    simp [process_file, hex, h1, hvals]
  · intro env t d mid op ra rb atr hex
    simp [process_file, hex]
  · intro env t d hex
    simp [process_file, hex]

/-- C5 witness: the amended statement at concrete payloads, against a store
where every lookup fails (the merge outcome is irrelevant). -/
theorem C5_notifications_always_targeted_witness :
    process_file c5_env c5_t_ok [("giro_2", 3)] = .targeted "M5" [("giro_2", 3)] ∧
    "M5" ≠ "" ∧
    process_file c5_env c5_t_empty [("giro_2", 3)] = .nothing ∧
    process_file c5_env c5_t_noid [("giro_2", 3)] = .nothing :=
  ⟨C5_notifications_always_targeted.1 c5_env c5_t_ok [("giro_2", 3)] "M5" [3]
      "Desconhecido" none none none rfl (by decide),
   C5_notifications_always_targeted.2.1 c5_t_ok "M5" [3] "Desconhecido" none none
      none rfl,
   C5_notifications_always_targeted.2.2.1 c5_env c5_t_empty [("giro_2", 3)] "M5"
      "Desconhecido" none none none rfl,
   C5_notifications_always_targeted.2.2.2 c5_env c5_t_noid [("giro_2", 3)] rfl⟩

/-! ## C9 -/

/-- C9: extraction keeps exactly the dimensional entries whose measured
value is numeric (`filterMap`), so dropping an entry shifts every later
entry to a lower position; the merge maps positions of the *filtered* list
to dimension labels.  Concretely, for entries `[5, "x", 7]` the extracted
list is `[5, 7]` and the merge writes `7` into the second dimension
(`cota_b`), leaving the third (`cota_c`) untouched. -/
theorem C9_non_numeric_dropped_and_positions_shift :
    (∀ (t : TubeInspection) (mid : String) (vals : List ℚ) (op : String)
        (ra rb atr : Option String),
      extract_data_from_json t = some (mid, vals, op, ra, rb, atr) →
      vals = t.dimensional.filterMap medidaNum) ∧
    (∀ (pre post : List (Option JVal)) (bad : Option JVal), medidaNum bad = none →
      (pre ++ bad :: post).filterMap medidaNum = (pre ++ post).filterMap medidaNum) ∧
    (extract_data_from_json c9_t =
        some ("M9", [5, 7], "Desconhecido", none, none, none) ∧
      (mergeRow c9_row [5, 7] "Op" none none none).cotas =
        [(some 5, some 5), (some 7, some 7), (some 0, some 0)]) := by
  refine ⟨?_, ?_, rfl, by decide⟩
  · intro t mid vals op ra rb atr h
    unfold extract_data_from_json at h
    by_cases hc : t.machine_id.getD "" = "" ∨ t.dimensional = []
    · rw [if_pos hc] at h
      exact absurd h (by simp)
    · rw [if_neg hc] at h
      simp only [Option.some.injEq, Prod.mk.injEq] at h
      exact h.2.1.symm
  · intro pre post bad hbad
    rw [List.filterMap_append, List.filterMap_append,
      List.filterMap_cons_none hbad]

/-- C9 witness: the general parts applied to the demonstration payload. -/
theorem C9_non_numeric_dropped_and_positions_shift_witness :
    ([5, 7] : List ℚ) = c9_t.dimensional.filterMap medidaNum ∧
    ([some (JVal.num 5)] ++ [some (JVal.str "x")] ++ [some (JVal.num 7)]).filterMap
        medidaNum =
      ([some (JVal.num 5)] ++ [some (JVal.num 7)]).filterMap medidaNum :=
  ⟨C9_non_numeric_dropped_and_positions_shift.1 c9_t "M9" [5, 7] "Desconhecido"
      none none none rfl,
   C9_non_numeric_dropped_and_positions_shift.2.1 [some (JVal.num 5)]
      [some (JVal.num 7)] (some (JVal.str "x")) rfl⟩

/-! ## C6 -/

/-- A duplicate submission (path already in flight) is rejected unchanged. -/
theorem submit_rejected_inflight (st : PipeState) (p : String)
    (hp : p ∈ st.processing_files) : submit st p = st := by
  simp [submit, hp]

/-- A submission against a full queue rolls its add back: no net change. -/
theorem submit_full_state (st : PipeState) (p : String)
    (h : MAX_QUEUE_SIZE ≤ st.processing_queue.length) : submit st p = st := by
  unfold submit
  by_cases hp : p ∈ st.processing_files
  · simp [hp]
  · simp only [hp, if_false, if_pos h, ite_false, ite_true, if_true]
    rw [List.erase_cons_head]

/-- An accepted submission: into the in-flight set, onto the queue's tail. -/
theorem submit_accepted (st : PipeState) (p : String)
    (hp : p ∉ st.processing_files)
    (hfull : ¬ MAX_QUEUE_SIZE ≤ st.processing_queue.length) :
    submit st p =
      ⟨p :: st.processing_files, st.processing_queue ++ [p], st.running⟩ := by
  simp [submit, hp, hfull]

theorem pipeInv_init : PipeInv PipeState.init := by
  refine ⟨List.nodup_nil, List.nodup_nil, ?_⟩
  intro p hp
  simp [PipeState.init] at hp

/-- Every pipeline step preserves the in-flight invariant. -/
theorem pipeInv_pstep (st : PipeState) (e : PipeEvent) (h : PipeInv st) :
    PipeInv (pstep st e) := by
  obtain ⟨h1, h2, h3⟩ := h
  cases e with
  | submit p =>
    show PipeInv (submit st p)
    by_cases hp : p ∈ st.processing_files
    · rw [submit_rejected_inflight st p hp]; exact ⟨h1, h2, h3⟩
    · by_cases hfull : MAX_QUEUE_SIZE ≤ st.processing_queue.length
      · rw [submit_full_state st p hfull]; exact ⟨h1, h2, h3⟩
      · rw [submit_accepted st p hp hfull]
        have hpnot : p ∉ st.processing_queue ++ st.running := fun hm => hp (h3 p hm)
        refine ⟨List.nodup_cons.mpr ⟨hp, h1⟩, ?_, ?_⟩
        · show ((st.processing_queue ++ [p]) ++ st.running).Nodup
          rw [List.append_assoc, List.singleton_append]
          exact List.perm_middle.symm.nodup (List.nodup_cons.mpr ⟨hpnot, h2⟩)
        · intro x hx
          rw [List.append_assoc, List.singleton_append] at hx
          rcases List.mem_append.mp hx with hx1 | hx2
          · exact List.mem_cons_of_mem p (h3 x (List.mem_append.mpr (Or.inl hx1)))
          · rcases List.mem_cons.mp hx2 with rfl | hx3
            · exact List.mem_cons_self _ _
            · exact List.mem_cons_of_mem p (h3 x (List.mem_append.mpr (Or.inr hx3)))
  | start =>
    show PipeInv (workerStart st)
    cases hq : st.processing_queue with
    | nil => simpa [workerStart, hq] using ⟨h1, h2, h3⟩
    | cons p rest =>
      rw [hq, List.cons_append] at h2 h3
      simp only [workerStart, hq]
      refine ⟨h1, ?_, ?_⟩
      · exact List.perm_middle.symm.nodup h2
      · intro x hx
        apply h3
        simp only [List.mem_cons, List.mem_append] at hx ⊢
        tauto
  | finish p ok =>
    show PipeInv (if p ∈ st.running then workerFinish st p else st)
    by_cases hp : p ∈ st.running
    · rw [if_pos hp]
      refine ⟨List.Nodup.erase p h1, ?_, ?_⟩
      · exact List.Nodup.sublist
          (List.Sublist.append_left (List.erase_sublist p st.running)
            st.processing_queue) h2
      · intro x hx
        rcases List.mem_append.mp hx with hx1 | hx2
        · have hxf : x ∈ st.processing_files :=
            h3 x (List.mem_append.mpr (Or.inl hx1))
          have hxp : x ≠ p := by
            rintro rfl
            exact (List.disjoint_of_nodup_append h2) hx1 hp
          exact (List.mem_erase_of_ne hxp).mpr hxf
        · have hrun : st.running.Nodup := List.Nodup.of_append_right h2
          have hx3 := (hrun.mem_erase_iff).mp hx2
          have hxf : x ∈ st.processing_files :=
            h3 x (List.mem_append.mpr (Or.inr hx3.2))
          exact (List.mem_erase_of_ne hx3.1).mpr hxf
    · rw [if_neg hp]
      exact ⟨h1, h2, h3⟩

/-- The invariant holds in every reachable pipeline state. -/
theorem pipeInv_prun (es : List PipeEvent) :
    ∀ st : PipeState, PipeInv st → PipeInv (prun st es) := by
  induction es with
  | nil => intro st h; exact h
  | cons e es ih => intro st h; exact ih _ (pipeInv_pstep st e h)

/-- C6: in every state reachable from the initial pipeline state, the
InFlightSet holds each path at most once; a path is processed by at most
one worker at a time; a submit of an in-flight path is rejected with no
state change; no step other than that path's own completion ever removes
an in-flight path; completion removes it whatever the outcome flag was;
and once out of the set a path is accepted again by `submit` (re-submittable). -/
theorem C6_in_flight_set_invariant (es : List PipeEvent) :
    (prun PipeState.init es).processing_files.Nodup ∧
    (∀ p, List.count p (prun PipeState.init es).running ≤ 1) ∧
    (∀ p, p ∈ (prun PipeState.init es).processing_files →
      pstep (prun PipeState.init es) (.submit p) = prun PipeState.init es) ∧
    (∀ (p : String) (e : PipeEvent), p ∈ (prun PipeState.init es).processing_files →
      (∀ ok, e ≠ .finish p ok) →
      p ∈ (pstep (prun PipeState.init es) e).processing_files) ∧
    (∀ (p : String) (ok : Bool), p ∈ (prun PipeState.init es).running →
      p ∉ (pstep (prun PipeState.init es) (.finish p ok)).processing_files) ∧
    (∀ p, p ∉ (prun PipeState.init es).processing_files →
      (prun PipeState.init es).processing_queue.length < MAX_QUEUE_SIZE →
      (pstep (prun PipeState.init es) (.submit p)).processing_files =
        p :: (prun PipeState.init es).processing_files ∧
      (pstep (prun PipeState.init es) (.submit p)).processing_queue =
        (prun PipeState.init es).processing_queue ++ [p]) := by
  obtain ⟨h1, h2, h3⟩ := pipeInv_prun es PipeState.init pipeInv_init
  set st := prun PipeState.init es with hst
  refine ⟨h1, ?_, ?_, ?_, ?_, ?_⟩
  · intro p
    exact List.nodup_iff_count_le_one.mp (List.Nodup.of_append_right h2) p
  · intro p hp
    exact submit_rejected_inflight st p hp
  · intro p e hp hne
    cases e with
    | submit q =>
      show p ∈ (submit st q).processing_files
      by_cases hq : q ∈ st.processing_files
      · rw [submit_rejected_inflight st q hq]; exact hp
      · by_cases hfull : MAX_QUEUE_SIZE ≤ st.processing_queue.length
        · rw [submit_full_state st q hfull]; exact hp
        · rw [submit_accepted st q hq hfull]
          exact List.mem_cons_of_mem q hp
    | start =>
      show p ∈ (workerStart st).processing_files
      cases hq : st.processing_queue with
      | nil => simpa [workerStart, hq] using hp
      | cons a rest => simpa [workerStart, hq] using hp
    | finish q ok =>
      have hqp : q ≠ p := fun hqp => hne ok (by rw [hqp])
      show p ∈ (if q ∈ st.running then workerFinish st q else st).processing_files
      by_cases hq : q ∈ st.running
      · rw [if_pos hq]
        exact (List.mem_erase_of_ne (Ne.symm hqp)).mpr hp
      · rw [if_neg hq]; exact hp
  · intro p ok hp
    show p ∉ (if p ∈ st.running then workerFinish st p else st).processing_files
    rw [if_pos hp]
    intro hmem
    exact ((h1.mem_erase_iff).mp hmem).1 rfl
  · intro p hp hlt
    rw [show pstep st (.submit p) = submit st p from rfl,
      submit_accepted st p hp (Nat.not_le_of_lt hlt)]
    exact ⟨rfl, rfl⟩

/-- C6 witness: after submitting path `a` and a worker pulling it, the
invariant holds, a duplicate submit is a no-op, and finishing removes `a`. -/
theorem C6_in_flight_set_invariant_witness :
    (prun PipeState.init [.submit "a", .start]).processing_files.Nodup ∧
    pstep (prun PipeState.init [.submit "a", .start]) (.submit "a") =
      prun PipeState.init [.submit "a", .start] ∧
    "a" ∉ (pstep (prun PipeState.init [.submit "a", .start])
      (.finish "a" false)).processing_files :=
  ⟨(C6_in_flight_set_invariant [.submit "a", .start]).1,
   (C6_in_flight_set_invariant [.submit "a", .start]).2.2.1 "a" (by decide),
   (C6_in_flight_set_invariant [.submit "a", .start]).2.2.2.2.1 "a" false (by decide)⟩

end ETLScanBus
